import Mathlib

/-!
Verification of the Typir type-system engine core against its specification.

The definitions below are a shallow embedding of the repository's source:

* `RelEdge`, `getAssignabilityResult`, `resolveOverload` — the relation graph of
  scenario S1 of the spec, the assignability path search and the overloaded
  operator resolution exercised by operator-overloaded.test.ts;
* `PTy`, `equalityProblems`, `analyzeIsSubTypeOf`, … — the fixed-parameters kind
  (FixedParameterType / FixedParameterKind);
* `TypeGraph`, `bottomOnConstruction`, `addTypeWithBottomListener` — the
  BottomType graph-listener behaviour;
* `onSwitchedToIdentifiable`, `registerOverload` — FunctionTypeInitializer;
* `createBottomType`, `bottomCompositeRule` — BottomKind.

Where the deciding service implementation is not part of the given sources
(graph, subtype/assignability services, composite inference dispatcher,
type-check strategies, initializer base class), the definition is modelled from
the specification and its doc comment says so.
-/

namespace Typir

/-! ## Scenario S1: primitives b, i, d, s with conversion and subtype edges -/

/-- The four primitive types of scenario S1: boolean, integer, double, string. -/
inductive PrimTy
  | b
  | i
  | d
  | s
deriving DecidableEq, Repr, Fintype

/-- Edge labels of the relation graph: SubTypeEdge and ConversionEdge
(only IMPLICIT_EXPLICIT conversions appear in the scenario, so the mode is
not carried). -/
inductive EdgeLabel
  | subTypeEdge
  | conversionEdge
deriving DecidableEq, Repr

/-- A directed relation edge between two primitive types. -/
structure RelEdge where
  label : EdgeLabel
  src : PrimTy
  dst : PrimTy
deriving DecidableEq, Repr

/-- Result of the assignability query: a success carrying the edge path, or an
AssignabilityProblem. -/
inductive AssignabilityResult
  | success (path : List RelEdge)
  | problem
deriving DecidableEq, Repr

/-- Modelled from the spec: one BFS expansion step of the assignability path
search (§4.G; the assignability service is not under src/). Subtype edges are
enqueued before conversion edges, realizing the tie-break that prefers a
subtype step over a conversion step. -/
def expandFrontier (edges : List RelEdge) (front : List (PrimTy × List RelEdge)) :
    List (PrimTy × List RelEdge) :=
  front.flatMap fun p =>
    ((edges.filter fun e => e.src == p.1 && e.label == EdgeLabel.subTypeEdge) ++
     (edges.filter fun e => e.src == p.1 && e.label == EdgeLabel.conversionEdge)).map
      fun e => (e.dst, e :: p.2)

/-- Modelled from the spec: fuel-bounded BFS of the assignability path search
(§4.G). The frontier holds reversed partial paths; the first frontier entry
that reaches the target yields the path. -/
def bfsSearch (edges : List RelEdge) (target : PrimTy) :
    Nat → List (PrimTy × List RelEdge) → Option (List RelEdge)
  | 0, _ => none
  | _ + 1, [] => none
  | fuel + 1, front =>
      match front.find? (fun p => p.1 == target) with
      | some p => some p.2.reverse
      | none => bfsSearch edges target fuel (expandFrontier edges front)

/-- Modelled from the spec: getAssignabilityResult (§4.G; not under src/) —
shortest path over subtype and implicit-conversion edges, the identity path
being empty; no path yields an AssignabilityProblem. -/
def getAssignabilityResult (edges : List RelEdge) (source target : PrimTy) :
    AssignabilityResult :=
  match bfsSearch edges target (edges.length + 1) [(source, [])] with
  | some path => .success path
  | none => .problem

/-- The relation edges installed by scenario S1 of the spec and by
operator-overloaded.test.ts: b implicitly convertible to i, i subtype of d,
d implicitly convertible to s. -/
def S1edges : List RelEdge :=
  [ ⟨.conversionEdge, .b, .i⟩, ⟨.subTypeEdge, .i, .d⟩, ⟨.conversionEdge, .d, .s⟩ ]

/-- Consecutive edges of a path are connected end to end. -/
def pathConnected : List RelEdge → Bool
  | [] => true
  | [_] => true
  | e1 :: e2 :: rest => e1.dst == e2.src && pathConnected (e2 :: rest)

/-! ## Overload resolution (spec §4.I) over the S1 relation graph -/

/-- A function-typed overload candidate: ordered input parameter types and the
output type. -/
structure FnCandidate where
  params : List PrimTy
  output : PrimTy
deriving DecidableEq, Repr

/-- Modelled from the spec: the per-argument cost of an overload candidate —
the length of the shortest assignability path (§4.I step 2); none when the
argument is not assignable to the parameter. -/
def assignCost (edges : List RelEdge) (source target : PrimTy) : Option Nat :=
  match getAssignabilityResult edges source target with
  | .success path => some path.length
  | .problem => none

/-- Modelled from the spec: the cost vector of a candidate for the given
argument types; none when the candidate is not applicable (§4.I step 1). -/
def candidateCosts (edges : List RelEdge) (args : List PrimTy) (c : FnCandidate) :
    Option (List Nat) :=
  if args.length = c.params.length then
    (List.zip args c.params).mapM (fun p => assignCost edges p.1 p.2)
  else none

/-- Modelled from the spec: dominance of cost vectors — everywhere at most and
somewhere strictly below (§4.I step 3). -/
def dominatesCosts (f g : List Nat) : Bool :=
  (List.zip f g).all (fun p => p.1 ≤ p.2) && (List.zip f g).any (fun p => p.1 < p.2)

/-- A candidate dominates every other candidate of the given set. -/
def dominatesAll (edges : List RelEdge) (args : List PrimTy)
    (cands : List FnCandidate) (f : FnCandidate) : Bool :=
  cands.all fun g =>
    g == f ||
    (match candidateCosts edges args f, candidateCosts edges args g with
     | some cf, some cg => dominatesCosts cf cg
     | _, _ => false)

/-- Outcome of overload resolution: the unique best match's output type, an
AmbiguousOverload problem with the tied candidates, or no applicable
candidate. -/
inductive OverloadResolution
  | found (output : PrimTy)
  | ambiguousOverload (tied : List FnCandidate)
  | noApplicable
deriving DecidableEq, Repr

/-- The applicable candidates (§4.I step 1). -/
def applicableCands (edges : List RelEdge) (cands : List FnCandidate)
    (args : List PrimTy) : List FnCandidate :=
  cands.filter fun c => (candidateCosts edges args c).isSome

/-- The applicable candidates that dominate all other applicable ones. -/
def dominatorList (edges : List RelEdge) (cands : List FnCandidate)
    (args : List PrimTy) : List FnCandidate :=
  (applicableCands edges cands args).filter
    (dominatesAll edges args (applicableCands edges cands args))

/-- Modelled from the spec: overload resolution (§4.I; the overloaded-function
inference rule is not under src/) — keep the applicable candidates, pick the
unique candidate dominating all others, otherwise report ambiguity. -/
def resolveOverload (edges : List RelEdge) (cands : List FnCandidate)
    (args : List PrimTy) : OverloadResolution :=
  match dominatorList edges cands args with
  | [] => if (applicableCands edges cands args).isEmpty then .noApplicable
          else .ambiguousOverload (applicableCands edges cands args)
  | [f] => .found f.output
  | ties => .ambiguousOverload ties

/-- Whether a unique dominating candidate exists among the applicable ones. -/
def hasUniqueDominator (edges : List RelEdge) (cands : List FnCandidate)
    (args : List PrimTy) : Bool :=
  (dominatorList edges cands args).length == 1

/-- The four binary '+' overloads of scenario S2 and the reference test:
(i,i)→i, (d,d)→d, (s,s)→s, (b,b)→b. -/
def plusOverloads : List FnCandidate :=
  [⟨[.i, .i], .i⟩, ⟨[.d, .d], .d⟩, ⟨[.s, .s], .s⟩, ⟨[.b, .b], .b⟩]

/-! ## Fixed-parameters kind (part_001, fixed-parameters-kind.ts) -/

/-- The type universe around the fixed-parameters kind: primitive types (whose
identifier is the primitive name) and fixed-parameters types
(FixedParameterType: a kind base name plus the ordered parameter types). -/
inductive PTy
  | prim (name : String)
  | fixedParam (baseName : String) (params : List PTy)

/-- The structured problem values of the engine (problems are values, not
exceptions): KindConflict, ValueConflict (checkValueForConflict),
TypeEqualityProblem, SubTypeProblem, AssignabilityProblem, and the conflict for
a parameter-count mismatch. -/
inductive TypirProblem
  | kindConflict
  | valueConflict (first second : String)
  | lengthConflict
  | typeEqualityProblem (subProblems : List TypirProblem)
  | subTypeProblem (subProblems : List TypirProblem)
  | assignabilityProblem (subProblems : List TypirProblem)

/-- From part_001 isFixedParameterType: whether a type's kind is a
fixed-parameters kind. -/
def isFixedParameterType : PTy → Bool
  | .fixedParam _ _ => true
  | .prim _ => false

mutual

/-- From part_001 FixedParameterType.analyzeTypeEqualityProblems: same base
name required (checkValueForConflict), then all parameter types pair-wise
checked via the equality service; a non-fixed-parameters other side yields a
TypeEqualityProblem whose sub-problem is a KindConflict. Primitive equality is
modelled from the spec (identity), as the primitive kind is not under src/. -/
def equalityProblems : PTy → PTy → List TypirProblem
  | .prim a, .prim b => if a = b then [] else [.valueConflict a b]
  | .fixedParam bn1 ps1, .fixedParam bn2 ps2 =>
      if bn1 = bn2 then checkTypesEq ps1 ps2 else [.valueConflict bn1 bn2]
  | _, _ => [.typeEqualityProblem [.kindConflict]]

/-- Modelled from the spec: utils checkTypes applied with the equality service
(utils-type-comparison.ts is not under src/) — pair-wise checks plus a conflict
for a length mismatch. -/
def checkTypesEq : List PTy → List PTy → List TypirProblem
  | [], [] => []
  | a :: as, b :: bs => equalityProblems a b ++ checkTypesEq as bs
  | _, _ => [.lengthConflict]

end

mutual

/-- From part_001 FixedParameterKind.calculateIdentifier / printSignature: the
identifier is the base name followed by the angle-bracketed, comma-separated
identifiers of the parameter types (the printer, not under src/, is modelled
from the spec: it prints a type's identifier). -/
def calculateIdentifier : PTy → String
  | .prim n => n
  | .fixedParam bn ps => bn ++ "<" ++ identifierList ps ++ ">"

/-- The join(', ') of the parameter identifiers inside printSignature. -/
def identifierList : List PTy → String
  | [] => ""
  | [t] => calculateIdentifier t
  | t :: rest => calculateIdentifier t ++ ", " ++ identifierList rest

end

/-- Joining a list of strings with ", " — the specification-level description
of printSignature's parameter list. -/
def joinIds : List String → String
  | [] => ""
  | [x] => x
  | x :: rest => x ++ ", " ++ joinIds rest

/-- Modelled from the spec: the type graph's addNode dedup (§4.A; the graph is
not under src/) — adding a type whose identifier already exists returns the
existing node and leaves the graph unchanged. The graph is the list of
(identifier, node) pairs, newest first. -/
def addNode (g : List (String × PTy)) (t : PTy) : List (String × PTy) × PTy :=
  match g.find? (fun p => p.1 == calculateIdentifier t) with
  | some p => (g, p.2)
  | none => ((calculateIdentifier t, t) :: g, t)

/-- Modelled from the spec: utils checkTypes with an arbitrary per-position
check (utils-type-comparison.ts is not under src/). -/
def checkTypesWith (f : PTy → PTy → List TypirProblem) :
    List PTy → List PTy → List TypirProblem
  | [], [] => []
  | a :: as, b :: bs => f a b ++ checkTypesWith f as bs
  | _, _ => [.lengthConflict]

/-- From part_001 FixedParameterType.analyzeSubTypeProblems: same base name
required (checkValueForConflict), then the parameter types are compared
position-wise with the kind's configured strategy. -/
def analyzeSubTypeProblems (strat : PTy → PTy → List TypirProblem)
    (bnSub : String) (psSub : List PTy) (bnSup : String) (psSup : List PTy) :
    List TypirProblem :=
  if bnSub = bnSup then checkTypesWith strat psSub psSup
  else [.valueConflict bnSub bnSup]

/-- From part_001 FixedParameterType.analyzeIsSubTypeOf, for the
fixed-parameters type with base name bn and parameters ps: a fixed-parameters
super type is analyzed via analyzeSubTypeProblems, every other kind yields a
SubTypeProblem whose sub-problem is a KindConflict. -/
def analyzeIsSubTypeOf (strat : PTy → PTy → List TypirProblem)
    (bn : String) (ps : List PTy) (superType : PTy) : List TypirProblem :=
  match superType with
  | .fixedParam bn2 ps2 => analyzeSubTypeProblems strat bn ps bn2 ps2
  | .prim _ => [.subTypeProblem [.kindConflict]]

/-- From part_001 FixedParameterType.analyzeIsSuperTypeOf (the dual query). -/
def analyzeIsSuperTypeOf (strat : PTy → PTy → List TypirProblem)
    (bn : String) (ps : List PTy) (subType : PTy) : List TypirProblem :=
  match subType with
  | .fixedParam bn2 ps2 => analyzeSubTypeProblems strat bn2 ps2 bn ps
  | .prim _ => [.subTypeProblem [.kindConflict]]

/-- From fixed-parameters-kind.ts FixedParameterKind.isSubType: when both
sides are fixed-parameters types of the same base name the parameter types are
compared with the configured strategy (super-type parameters first), and on
any other pair the method raises — `throw new Error()` — modelled as
`Except.error ()`. -/
def fixedParameterKind_isSubType (strat : PTy → PTy → List TypirProblem)
    (superType subType : PTy) : Except Unit (List TypirProblem) :=
  match superType, subType with
  | .fixedParam bn1 ps1, .fixedParam bn2 ps2 =>
      if bn1 = bn2 then .ok (checkTypesWith strat ps1 ps2) else .error ()
  | _, _ => .error ()

/-! ## Type-check strategies (spec §4.B/4.G) for parameter comparison -/

/-- The configurable parameter-comparison policies of the fixed-parameters
kind. -/
inductive TypeCheckStrategy
  | EQUAL_TYPE
  | SUB_TYPE
  | ASSIGNABLE_TYPE

/-- Fuel-bounded reachability over declared edges between primitive type
names. -/
def primReach (edges : List (String × String)) : Nat → String → String → Bool
  | 0, a, b => a == b
  | n + 1, a, b =>
      a == b ||
        (edges.filter (fun e => e.1 == a)).any (fun e => primReach edges n e.2 b)

mutual

/-- Structural Boolean equality on the PTy universe (the equality service's
verdict, see equalityProblems). -/
def ptyBeq : PTy → PTy → Bool
  | .prim a, .prim b => a == b
  | .fixedParam bn1 ps1, .fixedParam bn2 ps2 => bn1 == bn2 && ptyListBeq ps1 ps2
  | _, _ => false

def ptyListBeq : List PTy → List PTy → Bool
  | [], [] => true
  | a :: as, b :: bs => ptyBeq a b && ptyListBeq as bs
  | _, _ => false

end

/-- Modelled from the spec: the subtype service's verdict on parameter types
(§4.E; services/subtype.ts is not under src/) — reflexive, and transitive over
the declared subtype edges between primitives. -/
def paramIsSubType (subEdges : List (String × String)) (sub sup : PTy) : Bool :=
  match sub, sup with
  | .prim x, .prim y => primReach subEdges (subEdges.length + 1) x y
  | t1, t2 => ptyBeq t1 t2

/-- Modelled from the spec: assignability between parameter types (§4.G) —
identity, subtype steps and implicit-conversion steps. -/
def paramAssignable (subEdges convEdges : List (String × String))
    (sub sup : PTy) : Bool :=
  match sub, sup with
  | .prim x, .prim y =>
      primReach (subEdges ++ convEdges) (subEdges.length + convEdges.length + 1) x y
  | t1, t2 => ptyBeq t1 t2

/-- Modelled from the spec: createTypeCheckStrategy (the utils are not under
src/) — EQUAL_TYPE compares with the equality service, SUB_TYPE with the
subtype service, ASSIGNABLE_TYPE with assignability. -/
def createTypeCheckStrategy (subEdges convEdges : List (String × String)) :
    TypeCheckStrategy → PTy → PTy → List TypirProblem
  | .EQUAL_TYPE => fun a b => equalityProblems a b
  | .SUB_TYPE => fun sub sup =>
      if paramIsSubType subEdges sub sup then [] else [.subTypeProblem []]
  | .ASSIGNABLE_TYPE => fun sub sup =>
      if paramAssignable subEdges convEdges sub sup then []
      else [.assignabilityProblem []]

/-- Verdict of the subtype service's isSubType query: true, or a SubTypeProblem
value. -/
inductive SubTypeVerdict
  | isTrue
  | problem (p : TypirProblem)

/-- Modelled from the spec: the subtype service's isSubType on two
fixed-parameters types (§4.E; the service wrapper is not under src/) — an
empty problem list from the kind's analysis means true, otherwise the problems
are wrapped in a SubTypeProblem value. -/
def fpIsSubType (strat : PTy → PTy → List TypirProblem)
    (bnSub : String) (psSub : List PTy) (bnSup : String) (psSup : List PTy) :
    SubTypeVerdict :=
  match analyzeSubTypeProblems strat bnSub psSub bnSup psSup with
  | [] => .isTrue
  | p :: ps => .problem (.subTypeProblem (p :: ps))

/-- The declared subtype edge of scenario S4: integer is a subtype of
double. -/
def S4subEdges : List (String × String) := [("integer", "double")]

/-! ## BottomType as a graph listener (bottom-type.ts) -/

/-- A SubTypeEdge record, remembering the checkForCycles flag under which it
was created. -/
structure SubEdgeRec where
  sub : Nat
  sup : Nat
  checkForCycles : Bool
deriving DecidableEq, Repr

/-- The type graph as the Bottom listener sees it: registered type nodes (by
node id) and the subtype edges. -/
structure TypeGraph where
  types : List Nat
  subtypeEdges : List SubEdgeRec
deriving DecidableEq, Repr

/-- Fuel-bounded reachability over the subtype edges, for the cycle check. -/
def graphReach (edges : List SubEdgeRec) : Nat → Nat → Nat → Bool
  | 0, a, b => a == b
  | n + 1, a, b =>
      a == b ||
        (edges.filter (fun e => e.sub == a)).any (fun e => graphReach edges n e.sup b)

/-- Modelled from the spec: the subtype service's markAsSubType (§4.E;
services/subtype.ts is not under src/) — with checkForCycles true an edge that
would close a cycle is refused, with false the edge is added unchecked. -/
def serviceMarkAsSubType (g : TypeGraph) (sub sup : Nat) (checkForCycles : Bool) :
    TypeGraph :=
  if checkForCycles &&
      graphReach g.subtypeEdges (g.subtypeEdges.length + 1) sup sub then g
  else { g with subtypeEdges := ⟨sub, sup, checkForCycles⟩ :: g.subtypeEdges }

/-- From bottom-type.ts BottomType.markAsSubType: skip the Bottom type itself,
otherwise markAsSubType(this, type, checkForCycles: false). -/
def bottomMarkAsSubType (g : TypeGraph) (bottom t : Nat) : TypeGraph :=
  if t ≠ bottom then serviceMarkAsSubType g bottom t false else g

/-- From bottom-type.ts, the BottomType constructor: mark Bottom as a subtype
of every already-registered type (it then registers itself as a graph
listener). -/
def bottomOnConstruction (g : TypeGraph) (bottom : Nat) : TypeGraph :=
  g.types.foldl (fun acc t => bottomMarkAsSubType acc bottom t) g

/-- Modelled from the spec: graph addNode with identifier dedup and listener
notification (§4.A; the graph is not under src/), the registered listener
being BottomType.onAddedType from bottom-type.ts, which marks Bottom as a
subtype of the added type. -/
def addTypeWithBottomListener (g : TypeGraph) (bottom t : Nat) : TypeGraph :=
  if t ∈ g.types then g
  else bottomMarkAsSubType { g with types := t :: g.types } bottom t

/-- The Bottom life cycle: the constructor runs over the initial graph, the
Bottom node itself is added (its own add event reaches the listener), then the
later types are added one by one. -/
def bottomScenario (g0 : TypeGraph) (bottom : Nat) (added : List Nat) : TypeGraph :=
  added.foldl (fun g t => addTypeWithBottomListener g bottom t)
    (addTypeWithBottomListener (bottomOnConstruction g0 bottom) bottom bottom)

/-- The coverage invariant: every registered non-Bottom type carries the
Bottom subtype edge with the cycle check suppressed. -/
def BottomCovers (bottom : Nat) (g : TypeGraph) : Prop :=
  ∀ t ∈ g.types, t ≠ bottom → (⟨bottom, t, false⟩ : SubEdgeRec) ∈ g.subtypeEdges

/-! ## Composite inference dispatch (spec §4.H) and the BottomKind loop -/

/-- Modelled from the spec: the composite inference dispatcher (§4.H;
services/inference.ts is not under src/) — the registered rules are tried in
registration order and the first final answer wins. -/
def inferFirst {α β : Type} : List (α → Option β) → α → Option β
  | [], _ => none
  | r :: rs, n =>
      match r n with
      | some t => some t
      | none => inferFirst rs n

/-- How many rules the dispatcher evaluates on a node: it stops right after
the first rule that answers. -/
def inferEvaluated {α β : Type} : List (α → Option β) → α → Nat
  | [], _ => 0
  | r :: rs, n =>
      match r n with
      | some _ => 1
      | none => 1 + inferEvaluated rs n

/-- From part_000 BottomKind.createBottomType: the single generic inference
rule wrapping the given bottom inference rules — the loop returns the bottom
type on the first rule that matches and InferenceRuleNotApplicable (none)
otherwise; later rules are not evaluated once an earlier rule matched. -/
def bottomCompositeRule {α β : Type} : List (α → Bool) → β → α → Option β
  | [], _, _ => none
  | r :: rs, b, e => if r e then some b else bottomCompositeRule rs b e

/-! ## FunctionTypeInitializer (function-initializer.ts) -/

/-- The state the function-type initializer acts on: the graph keyed by
identifier (identifier, node id) and the registered inference rules, each
recorded as (the node the rule was created for, the type it is bound to). -/
structure InitializerState where
  graphTypes : List (String × Nat)
  rules : List (Nat × Option Nat)
deriving DecidableEq, Repr

/-- Modelled from the spec: TypeInitializer.producedType (§4.C;
initialization/type-initializer.ts is not under src/) — the new type is
deduplicated against existing nodes with the same identifier: a duplicate
makes the existing node the produced type and discards the initial node,
otherwise the initial node is added and produced. -/
def producedType (graph : List (String × Nat)) (ident : String) (initialId : Nat) :
    Nat × List (String × Nat) :=
  match graph.find? (fun p => p.1 == ident) with
  | some p => (p.2, graph)
  | none => (initialId, (ident, initialId) :: graph)

/-- From function-initializer.ts FunctionTypeInitializer.onSwitchedToIdentifiable:
when the produced (canonical) type differs from the initial node, the rules
registered for the initial node (bound to undefined) are deregistered and
fresh rules created for the canonical node are registered bound to it;
otherwise the initial node's rules are re-registered bound to the initial node
itself. -/
def onSwitchedToIdentifiable (s : InitializerState) (ident : String)
    (initialId : Nat) : Nat × InitializerState :=
  let pr := producedType s.graphTypes ident initialId
  if pr.1 ≠ initialId then
    (pr.1, { graphTypes := pr.2,
             rules := (pr.1, some pr.1) ::
               s.rules.filter (fun r => decide (r ≠ (initialId, none))) })
  else
    (initialId, { graphTypes := pr.2,
                  rules := (initialId, some initialId) ::
                    s.rules.filter (fun r => decide (r ≠ (initialId, none))) })

/-! ## BottomKind singleton (part_000) -/

/-- A bottom-type node: its graph node id and its identifier. -/
structure BottomNode where
  id : Nat
  identifier : String
deriving DecidableEq, Repr

/-- The state BottomKind acts on: the singleton slot, the graph keyed by
identifier, and the globally registered inference rules. -/
structure BottomKindState where
  inst : Option BottomNode
  graph : List (String × BottomNode)
  inferenceRules : List (Nat → Option BottomNode)

/-- From part_000 BottomKind.calculateIdentifier: the identifier of the bottom
type is the kind's configured name. -/
def bottomCalculateIdentifier (optName : String) : String := optName

/-- From part_000 BottomKind.createBottomType: when the singleton instance
already exists it is returned and the given inference rules are ignored;
otherwise the node is created, added to the graph, and (when at least one
inference rule is given) a single composite inference rule is registered. -/
def createBottomType (optName : String) (freshId : Nat)
    (inferenceRules : List (Nat → Bool)) (s : BottomKindState) :
    BottomNode × BottomKindState :=
  match s.inst with
  | some b => (b, s)
  | none =>
      let bt : BottomNode := ⟨freshId, bottomCalculateIdentifier optName⟩
      let s1 : BottomKindState :=
        { inst := some bt,
          graph := (bottomCalculateIdentifier optName, bt) :: s.graph,
          inferenceRules := s.inferenceRules }
      if inferenceRules.length ≥ 1 then
        (bt, { s1 with inferenceRules :=
                 (fun e => bottomCompositeRule inferenceRules bt e) ::
                   s1.inferenceRules })
      else (bt, s1)

/-- From part_000 BottomKind.getBottomType: look the bottom type up in the
graph under its calculated identifier. -/
def getBottomType (optName : String) (s : BottomKindState) : Option BottomNode :=
  (s.graph.find? (fun p => p.1 == bottomCalculateIdentifier optName)).map
    (fun p => p.2)

/-- From part_000 BottomKind.getOrCreateBottomType. -/
def getOrCreateBottomType (optName : String) (freshId : Nat)
    (inferenceRules : List (Nat → Bool)) (s : BottomKindState) :
    BottomNode × BottomKindState :=
  match getBottomType optName s with
  | some r => (r, s)
  | none => createBottomType optName freshId inferenceRules s

/-! ## Overload-group bookkeeping: sameOutputType (function-initializer.ts) -/

/-- From function-initializer.ts onSwitchedToIdentifiable, the overload-group
bookkeeping: the group is the list of the registered overloads' output types
(an output can be absent) paired with the sameOutputType field. The first
registration records its output; a later registration keeps the field only
when both the recorded and the new output exist and the equality service finds
no problems, and clears it to undefined otherwise; then the function is
appended. The equality service (§4.D, not under src/) is the embedded
equalityProblems. -/
def registerOverload (ov : List (Option PTy) × Option PTy) (out : Option PTy) :
    List (Option PTy) × Option PTy :=
  let sameOut :=
    if ov.1.length ≤ 0 then out
    else
      match ov.2, out with
      | some a, some b => if (equalityProblems a b).isEmpty then ov.2 else none
      | _, _ => none
  (ov.1 ++ [out], sameOut)

/-- The whole registration sequence, starting from the freshly created group
(no overloads, sameOutputType undefined). -/
def registerOverloads (outs : List (Option PTy)) : List (Option PTy) × Option PTy :=
  outs.foldl registerOverload ([], none)

/-! ## Theorems -/

/-- bottomMarkAsSubType either conses the suppressed-check edge (for a
non-Bottom target) or does nothing. -/
theorem bottomMark_eq (g : TypeGraph) (bottom t : Nat) :
    bottomMarkAsSubType g bottom t =
      if t ≠ bottom then
        { g with subtypeEdges := ⟨bottom, t, false⟩ :: g.subtypeEdges }
      else g := by
  unfold bottomMarkAsSubType serviceMarkAsSubType
  split <;> simp

/-- Marking keeps the registered types unchanged. -/
theorem bottomMark_types (g : TypeGraph) (bottom t : Nat) :
    (bottomMarkAsSubType g bottom t).types = g.types := by
  rw [bottomMark_eq]; split <;> rfl

/-- Marking keeps every existing edge. -/
theorem bottomMark_edge_mono {e : SubEdgeRec} (g : TypeGraph) (bottom t : Nat)
    (h : e ∈ g.subtypeEdges) :
    e ∈ (bottomMarkAsSubType g bottom t).subtypeEdges := by
  rw [bottomMark_eq]
  split
  · exact List.mem_cons_of_mem _ h
  · exact h

/-- Any edge after marking is an old edge or the Bottom edge just added. -/
theorem bottomMark_new_edge {e : SubEdgeRec} (g : TypeGraph) (bottom t : Nat)
    (h : e ∈ (bottomMarkAsSubType g bottom t).subtypeEdges) :
    e ∈ g.subtypeEdges ∨ (e = ⟨bottom, t, false⟩ ∧ t ≠ bottom) := by
  rw [bottomMark_eq] at h
  by_cases ht : t ≠ bottom
  · rw [if_pos ht] at h
    rcases List.mem_cons.mp h with h1 | h2
    · exact Or.inr ⟨h1, ht⟩
    · exact Or.inl h2
  · rw [if_neg ht] at h
    exact Or.inl h

/-- The constructor's fold keeps the registered types unchanged. -/
theorem foldl_bottomMark_types (bottom : Nat) :
    ∀ (l : List Nat) (g : TypeGraph),
      (l.foldl (fun acc t => bottomMarkAsSubType acc bottom t) g).types = g.types := by
  intro l
  induction l with
  | nil => intro g; rfl
  | cons a l ih => intro g; rw [List.foldl_cons, ih, bottomMark_types]

/-- The constructor's fold keeps every existing edge. -/
theorem foldl_bottomMark_edge_mono (bottom : Nat) {e : SubEdgeRec} :
    ∀ (l : List Nat) (g : TypeGraph), e ∈ g.subtypeEdges →
      e ∈ (l.foldl (fun acc t => bottomMarkAsSubType acc bottom t) g).subtypeEdges := by
  intro l
  induction l with
  | nil => intro g h; exact h
  | cons a l ih =>
      intro g h
      exact ih _ (bottomMark_edge_mono g bottom a h)

/-- After the constructor's fold, every listed non-Bottom type has the Bottom
subtype edge. -/
theorem foldl_bottomMark_cover (bottom : Nat) :
    ∀ (l : List Nat) (g : TypeGraph) (t : Nat), t ∈ l → t ≠ bottom →
      (⟨bottom, t, false⟩ : SubEdgeRec) ∈
        (l.foldl (fun acc t => bottomMarkAsSubType acc bottom t) g).subtypeEdges := by
  intro l
  induction l with
  | nil => intro g t ht; cases ht
  | cons a l ih =>
      intro g t ht hne
      rcases List.mem_cons.mp ht with h1 | h2
      · subst h1
        refine foldl_bottomMark_edge_mono bottom l _ ?_
        show _ ∈ (bottomMarkAsSubType g bottom t).subtypeEdges
        rw [bottomMark_eq, if_pos hne]
        exact List.mem_cons_self _ _
      · exact ih _ t h2 hne

/-- Any edge after the constructor's fold is an old edge or a suppressed-check
Bottom edge to a non-Bottom type. -/
theorem foldl_bottomMark_new_edge (bottom : Nat) {e : SubEdgeRec} :
    ∀ (l : List Nat) (g : TypeGraph),
      e ∈ (l.foldl (fun acc t => bottomMarkAsSubType acc bottom t) g).subtypeEdges →
      e ∈ g.subtypeEdges ∨ (e.sub = bottom ∧ e.sup ≠ bottom ∧ e.checkForCycles = false) := by
  intro l
  induction l with
  | nil => intro g h; exact Or.inl h
  | cons a l ih =>
      intro g h
      rcases ih _ h with h1 | h2
      · rcases bottomMark_new_edge g bottom a h1 with h3 | ⟨h4, h5⟩
        · exact Or.inl h3
        · subst h4; exact Or.inr ⟨rfl, h5, rfl⟩
      · exact Or.inr h2

/-- Adding a type through the graph (with the Bottom listener registered)
preserves the coverage invariant. -/
theorem addType_covers (g : TypeGraph) (bottom t : Nat)
    (h : BottomCovers bottom g) :
    BottomCovers bottom (addTypeWithBottomListener g bottom t) := by
  unfold addTypeWithBottomListener
  split
  · exact h
  · intro u hu hune
    rw [bottomMark_eq]
    by_cases ht : t ≠ bottom
    · rw [if_pos ht]
      rw [bottomMark_eq, if_pos ht] at hu
      rcases List.mem_cons.mp hu with h1 | h2
      · subst h1; exact List.mem_cons_self _ _
      · exact List.mem_cons_of_mem _ (h u h2 hune)
    · rw [if_neg ht]
      rw [bottomMark_eq, if_neg ht] at hu
      push_neg at ht
      subst ht
      rcases List.mem_cons.mp hu with h1 | h2
      · exact absurd h1 hune
      · exact h u h2 hune

/-- Adding a type keeps every existing edge. -/
theorem addType_edge_mono {e : SubEdgeRec} (g : TypeGraph) (bottom t : Nat)
    (h : e ∈ g.subtypeEdges) :
    e ∈ (addTypeWithBottomListener g bottom t).subtypeEdges := by
  unfold addTypeWithBottomListener
  split
  · exact h
  · exact bottomMark_edge_mono _ bottom t h

/-- Any edge after adding a type is an old edge or a suppressed-check Bottom
edge to a non-Bottom type. -/
theorem addType_new_edge {e : SubEdgeRec} (g : TypeGraph) (bottom t : Nat)
    (h : e ∈ (addTypeWithBottomListener g bottom t).subtypeEdges) :
    e ∈ g.subtypeEdges ∨ (e.sub = bottom ∧ e.sup ≠ bottom ∧ e.checkForCycles = false) := by
  unfold addTypeWithBottomListener at h
  by_cases hmem : t ∈ g.types
  · rw [if_pos hmem] at h; exact Or.inl h
  · rw [if_neg hmem] at h
    rcases bottomMark_new_edge _ bottom t h with h1 | ⟨h2, h3⟩
    · exact Or.inl h1
    · subst h2; exact Or.inr ⟨rfl, h3, rfl⟩

/-- The fold over the later additions preserves the coverage invariant. -/
theorem foldl_addType_covers (bottom : Nat) :
    ∀ (l : List Nat) (g : TypeGraph), BottomCovers bottom g →
      BottomCovers bottom
        (l.foldl (fun g t => addTypeWithBottomListener g bottom t) g) := by
  intro l
  induction l with
  | nil => intro g h; exact h
  | cons a l ih => intro g h; exact ih _ (addType_covers g bottom a h)

/-- Any edge after the fold over the later additions is an old edge or a
suppressed-check Bottom edge to a non-Bottom type. -/
theorem foldl_addType_new_edge (bottom : Nat) {e : SubEdgeRec} :
    ∀ (l : List Nat) (g : TypeGraph),
      e ∈ (l.foldl (fun g t => addTypeWithBottomListener g bottom t) g).subtypeEdges →
      e ∈ g.subtypeEdges ∨ (e.sub = bottom ∧ e.sup ≠ bottom ∧ e.checkForCycles = false) := by
  intro l
  induction l with
  | nil => intro g h; exact Or.inl h
  | cons a l ih =>
      intro g h
      rcases ih _ h with h1 | h2
      · exact addType_new_edge g bottom a h1
      · exact Or.inr h2

/-- C1: after the Bottom type is constructed over any initial graph and any
sequence of further types is added, every registered type other than Bottom
carries a subtype edge Bottom → t created with the cycle check suppressed
(checkForCycles false) — covering both the types that existed at construction
and the ones added afterwards — and every edge these operations add starts at
Bottom, never targets Bottom itself and has the cycle check suppressed. -/
theorem bottom_subtype_of_all_types (g0 : TypeGraph) (bottom : Nat)
    (added : List Nat) :
    (∀ t ∈ (bottomScenario g0 bottom added).types, t ≠ bottom →
        (⟨bottom, t, false⟩ : SubEdgeRec) ∈
          (bottomScenario g0 bottom added).subtypeEdges) ∧
    (∀ e ∈ (bottomScenario g0 bottom added).subtypeEdges,
        e ∉ g0.subtypeEdges →
        e.sub = bottom ∧ e.sup ≠ bottom ∧ e.checkForCycles = false) := by
  constructor
  · have hcons : BottomCovers bottom (bottomOnConstruction g0 bottom) := by
      intro t ht hne
      unfold bottomOnConstruction at ht ⊢
      rw [foldl_bottomMark_types] at ht
      exact foldl_bottomMark_cover bottom g0.types g0 t ht hne
    exact foldl_addType_covers bottom added _
      (addType_covers _ bottom bottom hcons)
  · intro e he hnew
    rcases foldl_addType_new_edge bottom added _ he with h1 | h2
    · rcases addType_new_edge _ bottom bottom h1 with h3 | h4
      · rcases foldl_bottomMark_new_edge bottom g0.types g0 h3 with h5 | h6
        · exact absurd h5 hnew
        · exact h6
      · exact h4
    · exact h2

/-- checkTypesEq is empty given that each listed type's equality check with any
type decides structural equality. -/
theorem checkTypesEq_nil_iff_aux (as : List PTy)
    (IH : ∀ a ∈ as, ∀ b, (equalityProblems a b = [] ↔ a = b)) :
    ∀ bs, (checkTypesEq as bs = [] ↔ as = bs) := by
  induction as with
  | nil => intro bs; cases bs <;> simp [checkTypesEq]
  | cons a as ih =>
    intro bs
    cases bs with
    | nil => simp [checkTypesEq]
    | cons b bs =>
      have ha := IH a (by simp) b
      have hrec := ih (fun x hx b' => IH x (by simp [hx]) b') bs
      simp [checkTypesEq, List.append_eq_nil, ha, hrec]

/-- The equality analysis returns no problems exactly for structurally equal
types (strong induction on the size of the first type). -/
theorem equalityProblems_nil_iff_bounded :
    ∀ (n : Nat) (a : PTy), sizeOf a ≤ n → ∀ b, (equalityProblems a b = [] ↔ a = b) := by
  intro n
  induction n with
  | zero => intro a ha; exfalso; cases a <;> simp at ha
  | succ n ih =>
    intro a ha b
    cases a with
    | prim x =>
      cases b with
      | prim y => by_cases h : x = y <;> simp [equalityProblems, h]
      | fixedParam bn ps => simp [equalityProblems]
    | fixedParam bn ps =>
      cases b with
      | prim y => simp [equalityProblems]
      | fixedParam bn2 ps2 =>
        by_cases hbn : bn = bn2
        · subst hbn
          have hps : ∀ x ∈ ps, ∀ b', equalityProblems x b' = [] ↔ x = b' := by
            intro x hx b'
            apply ih
            have h1 := List.sizeOf_lt_of_mem hx
            have h2 : sizeOf ps < sizeOf (PTy.fixedParam bn ps) := by simp
            omega
          rw [equalityProblems]
          simp [checkTypesEq_nil_iff_aux ps hps ps2]
        · simp [equalityProblems, hbn]

/-- areTypesEqual on the embedded universe decides structural equality. -/
theorem equalityProblems_nil_iff (a b : PTy) : equalityProblems a b = [] ↔ a = b :=
  equalityProblems_nil_iff_bounded (sizeOf a) a le_rfl b

/-- The pair-wise equality check succeeds exactly when the parameter lists are
position-wise equal under the equality service. -/
theorem checkTypesEq_nil_iff_forall2 (as bs : List PTy) :
    checkTypesEq as bs = [] ↔
      List.Forall₂ (fun a b => equalityProblems a b = []) as bs := by
  induction as generalizing bs with
  | nil => cases bs <;> simp [checkTypesEq]
  | cons a as ih =>
    cases bs with
    | nil => simp [checkTypesEq]
    | cons b bs => simp [checkTypesEq, List.append_eq_nil, ih, List.forall₂_cons]

/-- identifierList is the comma-join of the member identifiers. -/
theorem identifierList_eq_joinIds :
    ∀ ps : List PTy, identifierList ps = joinIds (ps.map calculateIdentifier) := by
  intro ps
  induction ps with
  | nil => rfl
  | cons t rest ih =>
    cases rest with
    | nil => rfl
    | cons u rest2 =>
        have hstep : identifierList (t :: u :: rest2)
            = calculateIdentifier t ++ ", " ++ identifierList (u :: rest2) := rfl
        rw [hstep, ih]; rfl

/-- C3: with b convertible to i, i subtype of d, d convertible to s, the
assignability of b to s succeeds with the exact three-edge path
ConversionEdge(b→i), SubTypeEdge(i→d), ConversionEdge(d→s), whose consecutive
edges are connected end to end; s to b yields an AssignabilityProblem; and
every type is assignable to itself with the empty path. -/
theorem assignability_s1_paths :
    getAssignabilityResult S1edges .b .s =
      .success [⟨.conversionEdge, .b, .i⟩, ⟨.subTypeEdge, .i, .d⟩,
                ⟨.conversionEdge, .d, .s⟩] ∧
    pathConnected [⟨.conversionEdge, .b, .i⟩, ⟨.subTypeEdge, .i, .d⟩,
                   ⟨.conversionEdge, .d, .s⟩] = true ∧
    getAssignabilityResult S1edges .s .b = .problem ∧
    (∀ t : PrimTy, getAssignabilityResult S1edges t t = .success []) := by
  refine ⟨by decide, by decide, by decide, by decide⟩

/-- C4: with the four '+' overloads and the S1 relations, overload resolution
picks the unique dominating candidate — +(i, s) infers s, +(d, i) infers d,
+(i, b) infers i — and whenever no unique dominator exists the resolution
reports an ambiguity (or no-applicable) problem, never a silent pick. -/
theorem overload_best_match :
    resolveOverload S1edges plusOverloads [.i, .s] = .found .s ∧
    resolveOverload S1edges plusOverloads [.d, .i] = .found .d ∧
    resolveOverload S1edges plusOverloads [.i, .b] = .found .i ∧
    (∀ cands args, hasUniqueDominator S1edges cands args = false →
      ∀ output, resolveOverload S1edges cands args ≠ .found output) := by
  refine ⟨by decide, by decide, by decide, ?_⟩
  intro cands args h output
  unfold resolveOverload
  unfold hasUniqueDominator at h
  cases hfil : dominatorList S1edges cands args with
  | nil => simp only; split <;> simp
  | cons f t =>
    cases t with
    | nil => rw [hfil] at h; simp at h
    | cons g t2 => simp

/-- C6: two fixed-parameters types are equal (no equality problems) exactly
when they share the base name and their parameter types are pair-wise equal
under the equality service — any mismatch yields problem values; the
identifier is the base name followed by the angle-bracketed, comma-joined
identifiers of the parameter types, so a second instantiation with the same
base name and parameter types deduplicates onto the node the first produced. -/
theorem fixedParameters_equality_identifier_dedup :
    (∀ bn1 ps1 bn2 ps2,
        equalityProblems (.fixedParam bn1 ps1) (.fixedParam bn2 ps2) = [] ↔
          bn1 = bn2 ∧
            List.Forall₂ (fun a b => equalityProblems a b = []) ps1 ps2) ∧
    (∀ bn ps, calculateIdentifier (.fixedParam bn ps) =
        bn ++ "<" ++ joinIds (ps.map calculateIdentifier) ++ ">") ∧
    (∀ g t, addNode (addNode g t).1 t = addNode g t) := by
  refine ⟨?_, ?_, ?_⟩
  · intro bn1 ps1 bn2 ps2
    by_cases hbn : bn1 = bn2
    · subst hbn
      rw [equalityProblems]
      simp [checkTypesEq_nil_iff_forall2]
    · simp [equalityProblems, hbn]
  · intro bn ps
    rw [calculateIdentifier, identifierList_eq_joinIds]
  · intro g t
    unfold addNode
    cases hf : g.find? (fun p => p.1 == calculateIdentifier t) with
    | some p => simp [hf]
    | none => simp [List.find?]

/-- C5: with List configured EQUAL_TYPE and integer a declared subtype of
double, isSubType(List<integer>, List<double>) yields a SubTypeProblem value;
with the SUB_TYPE strategy the same query yields true. -/
theorem fixedParameters_variance :
    fpIsSubType (createTypeCheckStrategy S4subEdges [] .EQUAL_TYPE)
        "List" [.prim "integer"] "List" [.prim "double"]
      = .problem (.subTypeProblem [.valueConflict "integer" "double"]) ∧
    fpIsSubType (createTypeCheckStrategy S4subEdges [] .SUB_TYPE)
        "List" [.prim "integer"] "List" [.prim "double"]
      = .isTrue :=
  ⟨rfl, rfl⟩

/-- C2 counterexample: FixedParameterKind.isSubType applied to a pair where
one side is not a fixed-parameters type raises — `throw new Error()`, modelled
as `Except.error ()` — instead of returning a SubTypeProblem value, refuting
the claim that this method never throws for that expected failure. -/
theorem fixedParameterKind_isSubType_raises :
    fixedParameterKind_isSubType (createTypeCheckStrategy [] [] .EQUAL_TYPE)
      (PTy.prim "integer") (PTy.fixedParam "List" [PTy.prim "integer"])
      = .error () :=
  rfl

/-- C2 (amended): the subtype analysis of FixedParameterType
(analyzeIsSubTypeOf / analyzeIsSuperTypeOf) applied to a pair whose other side
is not a fixed-parameters type returns a SubTypeProblem value containing a
KindConflict and does not throw, while the kind-level
FixedParameterKind.isSubType raises an Error on every such pair. -/
theorem kindConflict_problem_value (strat : PTy → PTy → List TypirProblem)
    (bn : String) (ps : List PTy) (other : PTy)
    (h : isFixedParameterType other = false) :
    analyzeIsSubTypeOf strat bn ps other = [.subTypeProblem [.kindConflict]] ∧
    analyzeIsSuperTypeOf strat bn ps other = [.subTypeProblem [.kindConflict]] ∧
    fixedParameterKind_isSubType strat other (.fixedParam bn ps) = .error () ∧
    fixedParameterKind_isSubType strat (.fixedParam bn ps) other = .error () := by
  cases other with
  | prim n => exact ⟨rfl, rfl, rfl, rfl⟩
  | fixedParam bn2 ps2 => simp [isFixedParameterType] at h

/-- C2 witness: the amended statement at the concrete pair
(List<integer>, boolean). -/
theorem kindConflict_problem_value_witness :
    analyzeIsSubTypeOf (createTypeCheckStrategy [] [] .EQUAL_TYPE)
        "List" [.prim "integer"] (.prim "boolean")
      = [.subTypeProblem [.kindConflict]] ∧
    analyzeIsSuperTypeOf (createTypeCheckStrategy [] [] .EQUAL_TYPE)
        "List" [.prim "integer"] (.prim "boolean")
      = [.subTypeProblem [.kindConflict]] ∧
    fixedParameterKind_isSubType (createTypeCheckStrategy [] [] .EQUAL_TYPE)
        (.prim "boolean") (.fixedParam "List" [.prim "integer"]) = .error () ∧
    fixedParameterKind_isSubType (createTypeCheckStrategy [] [] .EQUAL_TYPE)
        (.fixedParam "List" [.prim "integer"]) (.prim "boolean") = .error () :=
  kindConflict_problem_value (createTypeCheckStrategy [] [] .EQUAL_TYPE)
    "List" [.prim "integer"] (.prim "boolean") rfl

/-- The rule removed by deregistration is gone from the registry. -/
theorem notMem_filter_self (l : List (Nat × Option Nat)) (x : Nat × Option Nat) :
    x ∉ l.filter (fun r => decide (r ≠ x)) := by
  intro h
  have := (List.mem_filter.mp h).2
  simp at this

/-- C7: when the initial function node reaches the identifiable state, the
initializer publishes the canonical type: if another node with the same
identifier already exists, that node is produced, the graph is unchanged (the
initial node is discarded), the rules registered for the initial node are
deregistered and fresh rules bound to the canonical node are registered; when
no duplicate exists, the initial node is added and produced, and its rules are
re-registered bound to it. -/
theorem initializer_publishes_canonical (s : InitializerState) (ident : String)
    (initialId : Nat) (hfresh : ∀ p ∈ s.graphTypes, p.2 ≠ initialId) :
    (∀ e, s.graphTypes.find? (fun p => p.1 == ident) = some e →
        (onSwitchedToIdentifiable s ident initialId).1 = e.2 ∧
        (onSwitchedToIdentifiable s ident initialId).2.graphTypes = s.graphTypes ∧
        (e.2, some e.2) ∈ (onSwitchedToIdentifiable s ident initialId).2.rules ∧
        (initialId, (none : Option Nat)) ∉
          (onSwitchedToIdentifiable s ident initialId).2.rules) ∧
    (s.graphTypes.find? (fun p => p.1 == ident) = none →
        (onSwitchedToIdentifiable s ident initialId).1 = initialId ∧
        (ident, initialId) ∈
          (onSwitchedToIdentifiable s ident initialId).2.graphTypes ∧
        (initialId, some initialId) ∈
          (onSwitchedToIdentifiable s ident initialId).2.rules ∧
        (initialId, (none : Option Nat)) ∉
          (onSwitchedToIdentifiable s ident initialId).2.rules) := by
  constructor
  · intro e hfind
    have hne : e.2 ≠ initialId := hfresh e (List.mem_of_find?_eq_some hfind)
    unfold onSwitchedToIdentifiable producedType
    rw [hfind]
    simp only
    rw [if_pos hne]
    refine ⟨rfl, rfl, List.mem_cons_self _ _, ?_⟩
    intro hmem
    rcases List.mem_cons.mp hmem with h1 | h2
    · have := congrArg Prod.snd h1
      simp at this
    · exact notMem_filter_self s.rules _ h2
  · intro hfind
    unfold onSwitchedToIdentifiable producedType
    rw [hfind]
    simp only
    rw [if_neg (by simp)]
    refine ⟨rfl, List.mem_cons_self _ _, List.mem_cons_self _ _, ?_⟩
    intro hmem
    rcases List.mem_cons.mp hmem with h1 | h2
    · have := congrArg Prod.snd h1
      simp at this
    · exact notMem_filter_self s.rules _ h2

/-- C7 witness: the canonical-type switch at a concrete duplicate — the graph
already holds "f(x: integer): string" as node 7, the initial node is 3. -/
theorem initializer_publishes_canonical_witness :
    (onSwitchedToIdentifiable ⟨[("f(x: integer): string", 7)], [(3, none)]⟩
        "f(x: integer): string" 3).1 = 7 ∧
    (onSwitchedToIdentifiable ⟨[("f(x: integer): string", 7)], [(3, none)]⟩
        "f(x: integer): string" 3).2.graphTypes = [("f(x: integer): string", 7)] ∧
    (7, some 7) ∈ (onSwitchedToIdentifiable ⟨[("f(x: integer): string", 7)],
        [(3, none)]⟩ "f(x: integer): string" 3).2.rules ∧
    (3, (none : Option Nat)) ∉ (onSwitchedToIdentifiable
        ⟨[("f(x: integer): string", 7)], [(3, none)]⟩
        "f(x: integer): string" 3).2.rules :=
  (initializer_publishes_canonical ⟨[("f(x: integer): string", 7)], [(3, none)]⟩
      "f(x: integer): string" 3 (by decide)).1 ("f(x: integer): string", 7) rfl

/-- In registration order, the first rule to give a final answer determines
the dispatcher's result. -/
theorem inferFirst_first_match {α β : Type} (pre post : List (α → Option β))
    (r : α → Option β) (n : α) (a : β) (hr : r n = some a)
    (hpre : ∀ q ∈ pre, q n = none) :
    inferFirst (pre ++ r :: post) n = some a := by
  induction pre with
  | nil => simp [inferFirst, hr]
  | cons q pre ih =>
      have hq : q n = none := hpre q (List.mem_cons_self _ _)
      have hrec := ih (fun x hx => hpre x (List.mem_cons_of_mem _ hx))
      simp [inferFirst, hq, hrec]

/-- The dispatcher evaluates no rule after the first match. -/
theorem inferEvaluated_first_match {α β : Type} (pre post : List (α → Option β))
    (r : α → Option β) (n : α) (a : β) (hr : r n = some a)
    (hpre : ∀ q ∈ pre, q n = none) :
    inferEvaluated (pre ++ r :: post) n = pre.length + 1 := by
  induction pre with
  | nil => simp [inferEvaluated, hr]
  | cons q pre ih =>
      have hq : q n = none := hpre q (List.mem_cons_self _ _)
      have hrec := ih (fun x hx => hpre x (List.mem_cons_of_mem _ hx))
      simp [inferEvaluated, hq, hrec]
      omega

/-- The BottomKind composite loop is the first-match dispatcher on the lifted
rules. -/
theorem bottomComposite_eq_inferFirst {α β : Type} (rules : List (α → Bool))
    (b : β) (e : α) :
    bottomCompositeRule rules b e =
      inferFirst (rules.map (fun q x => if q x then some b else none)) e := by
  induction rules with
  | nil => rfl
  | cons q rules ih =>
      by_cases h : q e <;> simp [bottomCompositeRule, inferFirst, h, ih]

/-- C8: inference rules are tried in registration order — whenever every rule
registered before r does not apply to the node and r answers, the composite
dispatcher returns r's answer whatever the later rules would say, and it
evaluates exactly the rules up to and including r, so later rules are never
evaluated; the BottomKind composite loop from part_000 follows the same
first-match discipline. -/
theorem inference_registration_order {α β : Type} (pre post : List (α → Option β))
    (r : α → Option β) (n : α) (a : β) (hr : r n = some a)
    (hpre : ∀ q ∈ pre, q n = none) :
    inferFirst (pre ++ r :: post) n = some a ∧
    inferEvaluated (pre ++ r :: post) n = pre.length + 1 ∧
    (∀ (rules : List (α → Bool)) (b : β) (e : α),
        bottomCompositeRule rules b e =
          inferFirst (rules.map (fun q x => if q x then some b else none)) e) :=
  ⟨inferFirst_first_match pre post r n a hr hpre,
   inferEvaluated_first_match pre post r n a hr hpre,
   fun rules b e => bottomComposite_eq_inferFirst rules b e⟩

/-- C8 witness: two rules match node 5; the dispatcher returns the answer of
the earlier-registered one and evaluates two of the three rules. -/
theorem inference_registration_order_witness :
    inferFirst [fun _ : Nat => (none : Option Nat),
      fun k : Nat => some (k + 1), fun _ : Nat => some 0] 5 = some 6 ∧
    inferEvaluated [fun _ : Nat => (none : Option Nat),
      fun k : Nat => some (k + 1), fun _ : Nat => some 0] 5 = 2 ∧
    (∀ (rules : List (Nat → Bool)) (b : Nat) (e : Nat),
        bottomCompositeRule rules b e =
          inferFirst (rules.map (fun q x => if q x then some b else none)) e) :=
  inference_registration_order [fun _ => none] [fun _ => some 0]
    (fun k => some (k + 1)) 5 6 rfl (by intro q hq; simp at hq; simp [hq])

/-- Creating the bottom type when the singleton slot is filled returns the
instance unchanged. -/
theorem createBottomType_of_inst (optName : String) (freshId : Nat)
    (rules : List (Nat → Bool)) (s : BottomKindState) (b : BottomNode)
    (h : s.inst = some b) :
    createBottomType optName freshId rules s = (b, s) := by
  unfold createBottomType
  rw [h]

/-- After a first creation from an instance-free state, the singleton slot
holds the produced node and the graph lists it first under its identifier. -/
theorem createBottomType_state (optName : String) (freshId : Nat)
    (rules : List (Nat → Bool)) (s : BottomKindState) (h : s.inst = none) :
    (createBottomType optName freshId rules s).2.inst
        = some (createBottomType optName freshId rules s).1 ∧
    (createBottomType optName freshId rules s).2.graph
        = (bottomCalculateIdentifier optName,
            (createBottomType optName freshId rules s).1) :: s.graph := by
  unfold createBottomType
  rw [h]
  by_cases hd : rules.length ≥ 1
  · rw [if_pos hd]; exact ⟨rfl, rfl⟩
  · rw [if_neg hd]; exact ⟨rfl, rfl⟩

/-- C9: once the bottom-type singleton exists, every further createBottomType
call — whatever inference rules its type details carry — returns the same
instance with the state unchanged: no second node is added to the graph and
the later call's inference rules are never registered; getOrCreateBottomType
behaves the same. -/
theorem createBottomType_idempotent (optName : String) (f1 f2 : Nat)
    (d1 d2 : List (Nat → Bool)) (s0 : BottomKindState) (h0 : s0.inst = none) :
    createBottomType optName f2 d2 (createBottomType optName f1 d1 s0).2
      = ((createBottomType optName f1 d1 s0).1,
         (createBottomType optName f1 d1 s0).2) ∧
    getOrCreateBottomType optName f2 d2 (createBottomType optName f1 d1 s0).2
      = ((createBottomType optName f1 d1 s0).1,
         (createBottomType optName f1 d1 s0).2) ∧
    (createBottomType optName f2 d2 (createBottomType optName f1 d1 s0).2).2.graph
      = (createBottomType optName f1 d1 s0).2.graph ∧
    (createBottomType optName f2 d2
        (createBottomType optName f1 d1 s0).2).2.inferenceRules
      = (createBottomType optName f1 d1 s0).2.inferenceRules := by
  obtain ⟨hinst, hgraph⟩ := createBottomType_state optName f1 d1 s0 h0
  have hcreate := createBottomType_of_inst optName f2 d2
    (createBottomType optName f1 d1 s0).2 (createBottomType optName f1 d1 s0).1 hinst
  refine ⟨hcreate, ?_, by rw [hcreate], by rw [hcreate]⟩
  unfold getOrCreateBottomType getBottomType
  rw [hgraph]
  simp [List.find?, hcreate]

/-- C9 witness: a second creation call with fresh id 1 and an extra inference
rule after a first creation from the empty state returns the first node and
changes nothing. -/
theorem createBottomType_idempotent_witness :
    createBottomType "never" 1 [fun _ => true]
        (createBottomType "never" 0 [] ⟨none, [], []⟩).2
      = ((createBottomType "never" 0 [] ⟨none, [], []⟩).1,
         (createBottomType "never" 0 [] ⟨none, [], []⟩).2) ∧
    getOrCreateBottomType "never" 1 [fun _ => true]
        (createBottomType "never" 0 [] ⟨none, [], []⟩).2
      = ((createBottomType "never" 0 [] ⟨none, [], []⟩).1,
         (createBottomType "never" 0 [] ⟨none, [], []⟩).2) ∧
    (createBottomType "never" 1 [fun _ => true]
        (createBottomType "never" 0 [] ⟨none, [], []⟩).2).2.graph
      = (createBottomType "never" 0 [] ⟨none, [], []⟩).2.graph ∧
    (createBottomType "never" 1 [fun _ => true]
        (createBottomType "never" 0 [] ⟨none, [], []⟩).2).2.inferenceRules
      = (createBottomType "never" 0 [] ⟨none, [], []⟩).2.inferenceRules :=
  createBottomType_idempotent "never" 0 1 [] [fun _ => true] ⟨none, [], []⟩ rfl

/-- One registration appends the function to the overload group. -/
theorem registerOverload_fst (acc : List (Option PTy) × Option PTy)
    (out : Option PTy) : (registerOverload acc out).1 = acc.1 ++ [out] :=
  rfl

/-- One registration step preserves the sameOutputType characterization. -/
theorem registerOverload_inv (acc : List (Option PTy) × Option PTy)
    (out : Option PTy)
    (h : ∀ o : PTy, acc.2 = some o ↔ (acc.1 ≠ [] ∧ ∀ x ∈ acc.1, x = some o)) :
    ∀ o : PTy, (registerOverload acc out).2 = some o ↔
      (acc.1 ++ [out] ≠ [] ∧ ∀ x ∈ acc.1 ++ [out], x = some o) := by
  intro o
  unfold registerOverload
  simp only
  by_cases hlen : acc.1.length ≤ 0
  · have hnil : acc.1 = [] := List.length_eq_zero.mp (Nat.le_zero.mp hlen)
    rw [if_pos hlen]
    simp [hnil]
  · rw [if_neg hlen]
    have hne : acc.1 ≠ [] := fun hh =>
      hlen (Nat.le_of_eq (by rw [hh]; rfl))
    cases ha : acc.2 with
    | none =>
        cases out with
        | none =>
            constructor
            · intro hc; cases hc
            · rintro ⟨-, hall⟩
              have hx : (none : Option PTy) = some o :=
                hall none (List.mem_append_right _ (List.mem_cons_self _ _))
              cases hx
        | some b =>
            constructor
            · intro hc; cases hc
            · rintro ⟨-, hall⟩
              have h1 : acc.2 = some o :=
                (h o).mpr ⟨hne, fun x hx => hall x (List.mem_append_left _ hx)⟩
              rw [ha] at h1
              cases h1
    | some a =>
        cases out with
        | none =>
            constructor
            · intro hc; cases hc
            · rintro ⟨-, hall⟩
              have hx : (none : Option PTy) = some o :=
                hall none (List.mem_append_right _ (List.mem_cons_self _ _))
              cases hx
        | some b =>
            change (if (equalityProblems a b).isEmpty = true then some a
              else none) = some o ↔ _
            by_cases heq : (equalityProblems a b).isEmpty
            · rw [if_pos heq]
              have hab : a = b :=
                (equalityProblems_nil_iff a b).mp (List.isEmpty_iff.mp heq)
              subst hab
              constructor
              · intro hsome
                have hoa : a = o := by
                  have := Option.some.inj hsome
                  exact this
                subst hoa
                refine ⟨by simp, ?_⟩
                intro x hx
                rcases List.mem_append.mp hx with h1 | h2
                · exact ((h a).mp ha).2 x h1
                · rcases List.mem_singleton.mp h2 with rfl
                  rfl
              · rintro ⟨-, hall⟩
                have hx : some a = some o :=
                  hall (some a) (List.mem_append_right _ (List.mem_cons_self _ _))
                exact hx
            · rw [if_neg heq]
              have hab : a ≠ b := by
                intro hh
                subst hh
                exact heq (List.isEmpty_iff.mpr
                  ((equalityProblems_nil_iff a a).mpr rfl))
              constructor
              · intro hc; cases hc
              · rintro ⟨-, hall⟩
                have h1 : acc.2 = some o :=
                  (h o).mpr ⟨hne, fun x hx => hall x (List.mem_append_left _ hx)⟩
                rw [ha] at h1
                have h2 : some b = some o :=
                  hall (some b) (List.mem_append_right _ (List.mem_cons_self _ _))
                exact absurd ((Option.some.inj h1).trans
                  (Option.some.inj h2).symm) hab

/-- The fold of registrations appends the functions in order. -/
theorem registerOverloads_fold_fst :
    ∀ (outs : List (Option PTy)) (acc : List (Option PTy) × Option PTy),
      (outs.foldl registerOverload acc).1 = acc.1 ++ outs := by
  intro outs
  induction outs with
  | nil => intro acc; simp
  | cons o outs ih =>
      intro acc
      rw [List.foldl_cons, ih, registerOverload_fst, List.append_assoc]
      rfl

/-- The fold of registrations preserves the sameOutputType
characterization. -/
theorem registerOverloads_fold_inv :
    ∀ (outs : List (Option PTy)) (acc : List (Option PTy) × Option PTy),
      (∀ o : PTy, acc.2 = some o ↔ (acc.1 ≠ [] ∧ ∀ x ∈ acc.1, x = some o)) →
      ∀ o : PTy, (outs.foldl registerOverload acc).2 = some o ↔
        ((outs.foldl registerOverload acc).1 ≠ [] ∧
          ∀ x ∈ (outs.foldl registerOverload acc).1, x = some o) := by
  intro outs
  induction outs with
  | nil => intro acc h; exact h
  | cons o outs ih =>
      intro acc h
      exact ih (registerOverload acc o) (registerOverload_inv acc o h)

/-- Once the group is non-empty, a cleared sameOutputType stays cleared by one
more registration. -/
theorem registerOverload_none (acc : List (Option PTy) × Option PTy)
    (out : Option PTy) (hne : acc.1 ≠ []) (h : acc.2 = none) :
    (registerOverload acc out).2 = none := by
  unfold registerOverload
  simp only
  rw [if_neg (fun hlen => hne (List.length_eq_zero.mp (Nat.le_zero.mp hlen)))]
  rw [h]

/-- Once the group is non-empty, a cleared sameOutputType stays cleared by any
further registrations. -/
theorem registerOverloads_fold_none :
    ∀ (outs : List (Option PTy)) (acc : List (Option PTy) × Option PTy),
      acc.1 ≠ [] → acc.2 = none →
      (outs.foldl registerOverload acc).2 = none := by
  intro outs
  induction outs with
  | nil => intro acc _ h; exact h
  | cons o outs ih =>
      intro acc hne h
      rw [List.foldl_cons]
      refine ih (registerOverload acc o) ?_ (registerOverload_none acc o hne h)
      rw [registerOverload_fst]
      simp

/-- C10: after any sequence of function registrations under one name, the
group lists exactly the registered output types in order, sameOutputType is
defined exactly when every registered function has an output type and all of
them are equal — and it then equals that common output type — and once the
group is non-empty and sameOutputType has been cleared, it stays undefined
for all subsequent registrations. -/
theorem sameOutputType_invariant (outs : List (Option PTy)) :
    (registerOverloads outs).1 = outs ∧
    (∀ o : PTy, (registerOverloads outs).2 = some o ↔
        (outs ≠ [] ∧ ∀ x ∈ outs, x = some o)) ∧
    (∀ more : List (Option PTy), outs ≠ [] →
        (registerOverloads outs).2 = none →
        (registerOverloads (outs ++ more)).2 = none) := by
  have hfst : (registerOverloads outs).1 = outs := by
    unfold registerOverloads
    rw [registerOverloads_fold_fst]
    rfl
  refine ⟨hfst, ?_, ?_⟩
  · intro o
    have h0 : ∀ o : PTy,
        (([], none) : List (Option PTy) × Option PTy).2 = some o ↔
          ((([], none) : List (Option PTy) × Option PTy).1 ≠ [] ∧
            ∀ x ∈ (([], none) : List (Option PTy) × Option PTy).1,
              x = some o) := by
      intro o
      simp
    have hiv := registerOverloads_fold_inv outs ([], none) h0 o
    unfold registerOverloads
    rw [hiv]
    unfold registerOverloads at hfst
    rw [hfst]
  · intro more hne hnone
    unfold registerOverloads at hnone ⊢
    rw [List.foldl_append]
    refine registerOverloads_fold_none more _ ?_ hnone
    unfold registerOverloads at hfst
    rw [hfst]
    exact hne

end Typir
